import Mathlib

/-!
Verification of the ILR absence calculator (`src/main.rs`).

Dates are modelled as integer day numbers (the proleptic Gregorian day
count used by `chrono::NaiveDate`): the map from calendar dates to day
numbers is strictly monotone, date comparison is integer comparison,
`date + Duration::days(k)` is `+ k`, and `(d1 - d2).num_days()` is
`d1 - d2`.  `daysFromCivil` converts a `(year, month, day)` triple to its
day number so that the spec's concrete calendar dates can be evaluated.
-/

namespace ILR

/-- Day number of a proleptic-Gregorian calendar date (days since
1970-01-01), the standard civil-from-days correspondence used by date
libraries such as `chrono`. -/
def daysFromCivil (y m d : Int) : Int :=
  let y' := if m ≤ 2 then y - 1 else y
  let era : Int := (if 0 ≤ y' then y' else y' - 399) / 400
  let yoe := y' - era * 400
  let mp := (m + 9) % 12
  let doy := (153 * mp + 2) / 5 + d - 1
  let doe := yoe * 365 + yoe / 4 - yoe / 100 + doy
  era * 146097 + doe - 719468

/-- `CalculationResult` of `src/main.rs`: the record produced for each
input absence period. -/
structure CalculationResult where
  absence_start : Int
  absence_end : Int
  window_start : Int
  window_end : Int
  total_days_in_window : Int
  deriving Repr, DecidableEq

/-- The sort `sorted_periods.sort_by_key(|(start, _)| *start)` in
`calculate_rolling_absences`: stable sort by start date. -/
def sortPeriods (ps : List (Int × Int)) : List (Int × Int) :=
  ps.mergeSort (fun a b => decide (a.1 ≤ b.1))

/-- The merge loop of `calculate_rolling_absences` (lines 145–154 of
`src/main.rs`): `cur` is the interval currently at the back of
`merged_periods`; a period starting at most one day after `cur` ends is
absorbed (`last_mut.1 = max(last_mut.1, end)`), otherwise `cur` is closed
off and the period opens a new interval. -/
def mergeLoop : (Int × Int) → List (Int × Int) → List (Int × Int)
  | cur, [] => [cur]
  | cur, (s, e) :: rest =>
    if s ≤ cur.2 + 1 then mergeLoop (cur.1, max cur.2 e) rest
    else cur :: mergeLoop (s, e) rest

/-- The merged interval list built inside `calculate_rolling_absences`:
sort by start, seed with the first sorted period, then run the merge
loop over the rest.  (The `[]` case is unreachable in the source, which
only builds the merged list after the emptiness check.) -/
def mergeIntervals (ps : List (Int × Int)) : List (Int × Int) :=
  match sortPeriods ps with
  | [] => []
  | p :: rest => mergeLoop p rest

/-- The windowed sum of `calculate_rolling_absences` (lines 162–174):
clip each merged period to `[ws, we]` and sum `(overlap_end -
overlap_start).num_days() + 1` over the non-empty overlaps. -/
def windowSum (merged : List (Int × Int)) (ws we : Int) : Int :=
  (merged.map (fun p =>
    let overlap_start := max p.1 ws
    let overlap_end := min p.2 we
    if overlap_start ≤ overlap_end then overlap_end - overlap_start + 1 else 0)).sum

/-- `calculate_rolling_absences` of `src/main.rs`: empty input
short-circuits to the empty list; otherwise each input period, in input
order, yields a `CalculationResult` whose window is the 365 days ending
at the period's end date and whose total is the windowed sum over the
merged periods. -/
def calculate_rolling_absences (ps : List (Int × Int)) : List CalculationResult :=
  if ps.isEmpty then []
  else
    let merged := mergeIntervals ps
    ps.map (fun p =>
      let calculation_end := p.2
      let calculation_start := calculation_end - 365
      { absence_start := p.1
        absence_end := p.2
        window_start := calculation_start
        window_end := calculation_end
        total_days_in_window := windowSum merged calculation_start calculation_end })

/-- Day number of `chrono::NaiveDate::MIN`, the date `-262144-01-01`
(chrono's year range is `i32::MIN >> 13 = -262144` to
`i32::MAX >> 13 = 262143`).  The Gregorian calendar repeats every 400
years = 146097 days and `-262144 = 256 - 656 * 400`, so the value is
expressed through `daysFromCivil` at the congruent year 256. -/
def naiveDateMinDay : Int := daysFromCivil 256 1 1 - 656 * 146097

/-- Day number of `chrono::NaiveDate::MAX`, the date `262143-12-31`;
`262143 = 143 + 655 * 400`, so it is `daysFromCivil` at the congruent
year 143 plus 655 Gregorian cycles of 146097 days. -/
def naiveDateMaxDay : Int := daysFromCivil 143 12 31 + 655 * 146097

/-- The merge loop with chrono's panic made explicit: at line 148 the
source evaluates `last_mut.1 + Duration::days(1)`, whose `Add` impl
panics (`.expect`) when the sum leaves `NaiveDate`'s range — possible
only past `naiveDateMaxDay`, since adding one day cannot underflow.
`none` models that panic; otherwise the loop is the one of `mergeLoop`. -/
def mergeLoopChecked : (Int × Int) → List (Int × Int) → Option (List (Int × Int))
  | cur, [] => some [cur]
  | cur, (s, e) :: rest =>
    if naiveDateMaxDay < cur.2 + 1 then none
    else if s ≤ cur.2 + 1 then mergeLoopChecked (cur.1, max cur.2 e) rest
    else
      match mergeLoopChecked (s, e) rest with
      | none => none
      | some tl => some (cur :: tl)

/-- The per-period results loop with chrono's panic made explicit: at
line 159 the source evaluates `calculation_end - Duration::days(365)`,
whose `Sub` impl panics when the difference falls below `NaiveDate`'s
range — possible only under `naiveDateMinDay`, since subtracting 365
days cannot overflow.  `none` models that panic. -/
def resultsLoopChecked (merged : List (Int × Int)) :
    List (Int × Int) → Option (List CalculationResult)
  | [] => some []
  | q :: qs =>
    if q.2 - 365 < naiveDateMinDay then none
    else
      match resultsLoopChecked merged qs with
      | none => none
      | some rs =>
        some ({ absence_start := q.1
                absence_end := q.2
                window_start := q.2 - 365
                window_end := q.2
                total_days_in_window := windowSum merged (q.2 - 365) q.2 } :: rs)

/-- `calculate_rolling_absences` with every partial operation modelled:
`sorted_periods[0]` and the `last_mut().unwrap()` (both panic on an
empty list, unreachable after the emptiness check), and the two chrono
date additions that panic on `NaiveDate` range overflow — `+ 1 day` in
the merge loop (line 148) and `- 365 days` for the window start
(line 159).  The function is `none` exactly when a panicking operation
would be reached. -/
def calculateRollingAbsencesChecked (ps : List (Int × Int)) :
    Option (List CalculationResult) :=
  if ps.isEmpty then some []
  else
    match sortPeriods ps with
    | [] => none
    | p :: rest =>
      match mergeLoopChecked p rest with
      | none => none
      | some merged => resultsLoopChecked merged ps

/-- The validation loop of `parse_and_validate_absences` (lines 106–116):
records with `end_date < start_date` are skipped with a warning, the
rest are kept in order. -/
def validateAbsences : List (Int × Int) → List (Int × Int)
  | [] => []
  | p :: rest =>
    if p.2 < p.1 then validateAbsences rest else p :: validateAbsences rest

/-- `parse_and_validate_absences` of `src/main.rs`, with
`serde_json::from_str` abstracted as its outcome: a deserialization
failure is propagated by `?` as `Err`; a successful parse is filtered by
the validation loop and returned as `Ok`. -/
def parse_and_validate_absences (parsed : Except Unit (List (Int × Int))) :
    Except Unit (List (Int × Int)) :=
  match parsed with
  | .error e => .error e
  | .ok l => .ok (validateAbsences l)

/-- Concrete input of the overlapping-periods example:
`[2023-03-01, 2023-03-15]` and `[2023-03-10, 2023-03-25]`. -/
def overlapInput : List (Int × Int) :=
  [(daysFromCivil 2023 3 1, daysFromCivil 2023 3 15),
   (daysFromCivil 2023 3 10, daysFromCivil 2023 3 25)]

/-- Concrete input of the adjacency example:
`[2023-01-01, 2023-01-05]` and `[2023-01-06, 2023-01-10]`. -/
def adjacentInput : List (Int × Int) :=
  [(daysFromCivil 2023 1 1, daysFromCivil 2023 1 5),
   (daysFromCivil 2023 1 6, daysFromCivil 2023 1 10)]

/-- Concrete input of the separated-periods example:
`[2023-01-01, 2023-01-10]` and `[2023-08-01, 2023-08-20]`. -/
def separateInput : List (Int × Int) :=
  [(daysFromCivil 2023 1 1, daysFromCivil 2023 1 10),
   (daysFromCivil 2023 8 1, daysFromCivil 2023 8 20)]

/-- Concrete input of the out-of-window example:
`[2021-05-01, 2021-05-10]` and `[2023-08-01, 2023-08-20]`. -/
def outsideInput : List (Int × Int) :=
  [(daysFromCivil 2021 5 1, daysFromCivil 2021 5 10),
   (daysFromCivil 2023 8 1, daysFromCivil 2023 8 20)]

/-- Concrete input of the window-boundary example:
`[2022-08-25, 2022-09-05]` and `[2023-08-30, 2023-09-10]`. -/
def partialInput : List (Int × Int) :=
  [(daysFromCivil 2022 8 25, daysFromCivil 2022 9 5),
   (daysFromCivil 2023 8 30, daysFromCivil 2023 9 10)]

/-- Every interval of the list is well-formed: its end is on or after its
start. -/
def Valid (l : List (Int × Int)) : Prop := ∀ p ∈ l, p.1 ≤ p.2

/-- The calendar day `x` is covered by some interval of the list. -/
def covers (l : List (Int × Int)) (x : Int) : Prop :=
  ∃ p ∈ l, p.1 ≤ x ∧ x ≤ p.2

lemma covers_cons (p : Int × Int) (l : List (Int × Int)) (x : Int) :
    covers (p :: l) x ↔ (p.1 ≤ x ∧ x ≤ p.2) ∨ covers l x := by
  simp only [covers, List.mem_cons]
  constructor
  · rintro ⟨q, hq | hq, h⟩
    · exact Or.inl (hq ▸ h)
    · exact Or.inr ⟨q, hq, h⟩
  · rintro (h | ⟨q, hq, h⟩)
    · exact ⟨p, Or.inl rfl, h⟩
    · exact ⟨q, Or.inr hq, h⟩

lemma sortPeriods_perm (ps : List (Int × Int)) : List.Perm (sortPeriods ps) ps :=
  List.mergeSort_perm ps _

lemma sortPeriods_pairwise (ps : List (Int × Int)) :
    (sortPeriods ps).Pairwise (fun a b => a.1 ≤ b.1) := by
  have h : (ps.mergeSort (fun a b => decide (a.1 ≤ b.1))).Pairwise
      (fun a b : Int × Int => decide (a.1 ≤ b.1) = true) :=
    List.sorted_mergeSort
      (fun a b c h1 h2 => by
        simp only [decide_eq_true_eq] at h1 h2 ⊢; omega)
      (fun a b => by
        simp only [Bool.or_eq_true, decide_eq_true_eq]; omega)
      ps
  exact h.imp (fun hab => of_decide_eq_true hab)

lemma sortPeriods_sorted_self (ps : List (Int × Int))
    (h : ps.Pairwise (fun a b => decide (a.1 ≤ b.1) = true)) : sortPeriods ps = ps :=
  List.mergeSort_of_sorted h

lemma mergeLoop_spec (rest : List (Int × Int)) : ∀ (cur : Int × Int),
    cur.1 ≤ cur.2 → Valid rest →
    rest.Pairwise (fun a b => a.1 ≤ b.1) →
    (∀ p ∈ rest, cur.1 ≤ p.1) →
    (∃ e tl, mergeLoop cur rest = (cur.1, e) :: tl ∧ cur.2 ≤ e) ∧
    Valid (mergeLoop cur rest) ∧
    (mergeLoop cur rest).Chain' (fun a b => a.2 + 2 ≤ b.1) ∧
    (∀ x, covers (mergeLoop cur rest) x ↔ covers (cur :: rest) x) := by
  induction rest with
  | nil =>
    intro cur hcur _ _ _
    refine ⟨⟨cur.2, [], by rw [mergeLoop], le_refl _⟩, ?_, ?_, fun x => Iff.rfl⟩
    · intro p hp
      rw [mergeLoop, List.mem_singleton] at hp
      exact hp ▸ hcur
    · rw [mergeLoop]
      exact List.chain'_singleton cur
  | cons q rest ih =>
    obtain ⟨s, e⟩ := q
    intro cur hcur hv hsort hge
    have hse : s ≤ e := hv (s, e) (List.mem_cons_self _ _)
    have hcs : cur.1 ≤ s := hge (s, e) (List.mem_cons_self _ _)
    have hvt : Valid rest := fun p hp => hv p (List.mem_cons_of_mem _ hp)
    have hsort' := List.pairwise_cons.mp hsort
    by_cases hle : s ≤ cur.2 + 1
    · have heq : mergeLoop cur ((s, e) :: rest) = mergeLoop (cur.1, max cur.2 e) rest := by
        rw [mergeLoop, if_pos hle]
      have hm := max_choice cur.2 e
      obtain ⟨⟨e2, tl, heq2, he2⟩, hvalid, hchain, hcov⟩ :=
        ih (cur.1, max cur.2 e)
          (le_trans hcur (le_max_left _ _))
          hvt hsort'.2
          (fun p hp => hge p (List.mem_cons_of_mem _ hp))
      rw [heq]
      refine ⟨⟨e2, tl, heq2, le_trans (le_max_left _ _) he2⟩, hvalid, hchain, ?_⟩
      intro x
      rw [hcov x, covers_cons, covers_cons, covers_cons]
      dsimp only
      constructor
      · rintro (⟨h1, h2⟩ | hC)
        · rcases le_or_lt x cur.2 with h3 | h3
          · exact Or.inl ⟨h1, h3⟩
          · refine Or.inr (Or.inl ⟨?_, ?_⟩) <;> rcases hm with hm | hm <;> rw [hm] at h2 <;> omega
        · exact Or.inr (Or.inr hC)
      · rintro (⟨h1, h2⟩ | ⟨h1, h2⟩ | hC)
        · refine Or.inl ⟨h1, ?_⟩
          rcases hm with hm | hm <;> rw [hm] <;> omega
        · refine Or.inl ⟨by omega, ?_⟩
          rcases hm with hm | hm <;> rw [hm] <;> omega
        · exact Or.inr hC
    · have hgap : cur.2 + 2 ≤ s := by omega
      have heq : mergeLoop cur ((s, e) :: rest) = cur :: mergeLoop (s, e) rest := by
        rw [mergeLoop, if_neg hle]
      obtain ⟨⟨e2, tl, heq2, he2⟩, hvalid, hchain, hcov⟩ :=
        ih (s, e) hse hvt hsort'.2 (fun p hp => hsort'.1 p hp)
      rw [heq]
      refine ⟨⟨cur.2, mergeLoop (s, e) rest, by rw [Prod.mk.eta], le_refl _⟩, ?_, ?_, ?_⟩
      · intro p hp
        rcases List.mem_cons.mp hp with h | h
        · exact h ▸ hcur
        · exact hvalid p h
      · refine List.chain'_cons'.mpr ⟨?_, hchain⟩
        intro hd hhd
        rw [heq2] at hhd
        simp only [List.head?_cons, Option.mem_def, Option.some.injEq] at hhd
        rw [← hhd]
        exact hgap
      · intro x
        rw [covers_cons, covers_cons, hcov x, covers_cons]

lemma mergeIntervals_spec (ps : List (Int × Int)) (hv : Valid ps) :
    Valid (mergeIntervals ps) ∧
    (mergeIntervals ps).Chain' (fun a b => a.2 + 2 ≤ b.1) ∧
    (∀ x, covers (mergeIntervals ps) x ↔ covers ps x) := by
  have hperm := sortPeriods_perm ps
  have hpair := sortPeriods_pairwise ps
  have hvs : Valid (sortPeriods ps) := fun p hp => hv p (hperm.mem_iff.mp hp)
  have hcovs : ∀ x, covers (sortPeriods ps) x ↔ covers ps x := by
    intro x
    constructor <;> rintro ⟨p, hp, h⟩
    · exact ⟨p, hperm.mem_iff.mp hp, h⟩
    · exact ⟨p, hperm.mem_iff.mpr hp, h⟩
  rcases hs : sortPeriods ps with _ | ⟨p, rest⟩
  · have hnil : ps = [] := by
      rw [hs] at hperm
      exact hperm.nil_eq.symm
    rw [mergeIntervals, hs]
    refine ⟨fun p hp => absurd hp (List.not_mem_nil p), List.chain'_nil, ?_⟩
    intro x
    subst hnil
    exact Iff.rfl
  · rw [hs] at hpair hvs hcovs
    have hspec := mergeLoop_spec rest p
      (hvs p (List.mem_cons_self _ _))
      (fun q hq => hvs q (List.mem_cons_of_mem _ hq))
      (List.pairwise_cons.mp hpair).2
      (fun q hq => (List.pairwise_cons.mp hpair).1 q hq)
    have hme : mergeIntervals ps = mergeLoop p rest := by
      rw [mergeIntervals, hs]
    rw [hme]
    exact ⟨hspec.2.1, hspec.2.2.1, fun x => (hspec.2.2.2 x).trans (hcovs x)⟩

lemma chain_gap_start_mono (l : List (Int × Int)) : ∀ (c : Int),
    Valid l → l.Chain' (fun a b => a.2 + 2 ≤ b.1) →
    (∀ hd ∈ l.head?, c ≤ hd.1) → ∀ b ∈ l, c ≤ b.1 := by
  induction l with
  | nil => intro c _ _ _ b hb; exact absurd hb (List.not_mem_nil b)
  | cons a l ih =>
    intro c hv hchain hhd b hb
    have hca : c ≤ a.1 := hhd a (by simp)
    rcases List.mem_cons.mp hb with h | h
    · exact h ▸ hca
    · have hc' := List.chain'_cons'.mp hchain
      refine ih (c) (fun q hq => hv q (List.mem_cons_of_mem _ hq)) hc'.2 ?_ b h
      intro hd hhd'
      have hrel := hc'.1 hd hhd'
      have hav : a.1 ≤ a.2 := hv a (List.mem_cons_self _ _)
      omega

lemma chain_gap_pairwise (l : List (Int × Int)) :
    Valid l → l.Chain' (fun a b => a.2 + 2 ≤ b.1) →
    l.Pairwise (fun a b => a.2 + 2 ≤ b.1) := by
  induction l with
  | nil => intro _ _; exact List.Pairwise.nil
  | cons a l ih =>
    intro hv hchain
    have hc' := List.chain'_cons'.mp hchain
    have hvt : Valid l := fun q hq => hv q (List.mem_cons_of_mem _ hq)
    refine List.pairwise_cons.mpr ⟨?_, ih hvt hc'.2⟩
    intro b hb
    exact chain_gap_start_mono l (a.2 + 2) hvt hc'.2 (fun hd hhd => hc'.1 hd hhd) b hb

lemma mergeIntervals_valid (ps : List (Int × Int)) (hv : Valid ps) :
    Valid (mergeIntervals ps) := (mergeIntervals_spec ps hv).1

lemma mergeIntervals_pairwise_gap (ps : List (Int × Int)) (hv : Valid ps) :
    (mergeIntervals ps).Pairwise (fun a b => a.2 + 2 ≤ b.1) :=
  chain_gap_pairwise _ (mergeIntervals_valid ps hv) (mergeIntervals_spec ps hv).2.1

lemma mergeIntervals_sorted (ps : List (Int × Int)) (hv : Valid ps) :
    (mergeIntervals ps).Pairwise (fun a b => a.1 ≤ b.1) := by
  have hval := mergeIntervals_valid ps hv
  refine (mergeIntervals_pairwise_gap ps hv).imp_of_mem ?_
  intro a b ha _ hab
  have := hval a ha
  omega

lemma mergeIntervals_nil : mergeIntervals ([] : List (Int × Int)) = [] := by
  rw [mergeIntervals, sortPeriods, List.mergeSort_nil]

lemma windowSum_cons (p : Int × Int) (l : List (Int × Int)) (ws we : Int) :
    windowSum (p :: l) ws we =
      (if max p.1 ws ≤ min p.2 we then min p.2 we - max p.1 ws + 1 else 0)
        + windowSum l ws we := by
  simp only [windowSum, List.map_cons, List.sum_cons]

lemma windowSum_nonneg (l : List (Int × Int)) (ws we : Int) :
    0 ≤ windowSum l ws we := by
  induction l with
  | nil => simp [windowSum]
  | cons p l ih =>
    rw [windowSum_cons]
    by_cases h : max p.1 ws ≤ min p.2 we
    · rw [if_pos h]; omega
    · rw [if_neg h]; omega

lemma windowSum_eq_zero (l : List (Int × Int)) (ws we : Int)
    (h : ∀ q ∈ l, ¬(max q.1 ws ≤ min q.2 we)) : windowSum l ws we = 0 := by
  induction l with
  | nil => simp [windowSum]
  | cons p l ih =>
    rw [windowSum_cons, if_neg (h p (List.mem_cons_self _ _)),
      ih (fun q hq => h q (List.mem_cons_of_mem _ hq))]
    omega

lemma windowSum_shift (l : List (Int × Int)) (ws w2 we : Int)
    (h : ∀ q ∈ l, max q.1 ws = max q.1 w2) : windowSum l ws we = windowSum l w2 we := by
  induction l with
  | nil => simp [windowSum]
  | cons p l ih =>
    rw [windowSum_cons, windowSum_cons, h p (List.mem_cons_self _ _),
      ih (fun q hq => h q (List.mem_cons_of_mem _ hq))]

lemma windowSum_le (l : List (Int × Int)) : ∀ (ws we : Int),
    Valid l → l.Pairwise (fun a b => a.2 + 2 ≤ b.1) → ws ≤ we →
    windowSum l ws we ≤ we - ws + 1 := by
  induction l with
  | nil => intro ws we _ _ hwe; simp [windowSum]; omega
  | cons p l ih =>
    intro ws we hv hpw hwe
    have hvp : p.1 ≤ p.2 := hv p (List.mem_cons_self _ _)
    have hvt : Valid l := fun q hq => hv q (List.mem_cons_of_mem _ hq)
    have hpw' := List.pairwise_cons.mp hpw
    rw [windowSum_cons]
    by_cases hov : max p.1 ws ≤ min p.2 we
    · rw [if_pos hov]
      have hmaxw : ws ≤ max p.1 ws := le_max_right _ _
      have hminw : min p.2 we ≤ we := min_le_right _ _
      have hminp : min p.2 we ≤ p.2 := min_le_left _ _
      by_cases hwe2 : we ≤ p.2
      · have hz : windowSum l ws we = 0 := by
          refine windowSum_eq_zero l ws we ?_
          intro q hq hcon
          have h1 : q.1 ≤ max q.1 ws := le_max_left _ _
          have h2 : min q.2 we ≤ we := min_le_right _ _
          have h3 := hpw'.1 q hq
          omega
        rw [hz]
        omega
      · have hshift : windowSum l ws we = windowSum l (p.2 + 1) we := by
          refine windowSum_shift l ws (p.2 + 1) we ?_
          intro q hq
          have h3 := hpw'.1 q hq
          rw [max_eq_left (by omega), max_eq_left (by omega)]
        have hbound := ih (p.2 + 1) we hvt hpw'.2 (by omega)
        rw [hshift]
        omega
    · rw [if_neg hov]
      have := ih ws we hvt hpw'.2 hwe
      omega

/-- C1: for every valid input list (each period's end on or after its
start), the merged list built inside `calculate_rolling_absences` has a
gap of at least two days between consecutive intervals (hence its
intervals are pairwise disjoint), is sorted by start date, and covers
exactly the union of the calendar days of the input periods; the empty
input produces the empty merged list. -/
theorem claim_C1 (ps : List (Int × Int)) (hv : ∀ p ∈ ps, p.1 ≤ p.2) :
    (mergeIntervals ps).Pairwise (fun a b => a.2 + 2 ≤ b.1) ∧
    (mergeIntervals ps).Pairwise (fun a b => a.1 ≤ b.1) ∧
    (∀ x : Int, covers (mergeIntervals ps) x ↔ covers ps x) ∧
    mergeIntervals ([] : List (Int × Int)) = [] :=
  ⟨mergeIntervals_pairwise_gap ps hv, mergeIntervals_sorted ps hv,
   (mergeIntervals_spec ps hv).2.2, mergeIntervals_nil⟩

/-- Witness for C1 at the concrete valid input `[(0, 1), (5, 6)]`. -/
theorem claim_C1_witness :
    (∀ p ∈ [((0 : Int), (1 : Int)), (5, 6)], p.1 ≤ p.2) ∧
    ((mergeIntervals [((0 : Int), (1 : Int)), (5, 6)]).Pairwise
        (fun a b => a.2 + 2 ≤ b.1) ∧
     (mergeIntervals [((0 : Int), (1 : Int)), (5, 6)]).Pairwise
        (fun a b => a.1 ≤ b.1) ∧
     (∀ x : Int, covers (mergeIntervals [((0 : Int), (1 : Int)), (5, 6)]) x ↔
        covers [((0 : Int), (1 : Int)), (5, 6)] x) ∧
     mergeIntervals ([] : List (Int × Int)) = []) :=
  ⟨by decide, claim_C1 [((0 : Int), (1 : Int)), (5, 6)] (by decide)⟩

/-- C2: each result's window ends exactly at the corresponding input
period's end date and starts exactly 365 days earlier, index by index. -/
theorem claim_C2 (ps : List (Int × Int)) :
    (calculate_rolling_absences ps).map (fun r => (r.window_start, r.window_end)) =
      ps.map (fun p => (p.2 - 365, p.2)) := by
  cases ps with
  | nil => rfl
  | cons p ps =>
    simp only [calculate_rolling_absences, List.isEmpty_cons, Bool.false_eq_true,
      if_false, List.map_map]
    rfl

/-- C4: the result list has the same length as the input, echoes each
input period's start and end dates at the same index (so in the original
input order), and the empty input yields the empty result list. -/
theorem claim_C4 (ps : List (Int × Int)) :
    (calculate_rolling_absences ps).length = ps.length ∧
    (calculate_rolling_absences ps).map (fun r => (r.absence_start, r.absence_end)) = ps ∧
    calculate_rolling_absences [] = [] := by
  refine ⟨?_, ?_, rfl⟩
  · cases ps with
    | nil => rfl
    | cons p ps =>
      simp only [calculate_rolling_absences, List.isEmpty_cons, Bool.false_eq_true,
        if_false, List.length_map]
  · cases ps with
    | nil => rfl
    | cons p ps =>
      simp only [calculate_rolling_absences, List.isEmpty_cons, Bool.false_eq_true,
        if_false, List.map_map]
      exact List.map_id'' (fun q => rfl) _

lemma mergeLoopChecked_eq (rest : List (Int × Int)) : ∀ cur : Int × Int,
    cur.2 + 1 ≤ naiveDateMaxDay → (∀ p ∈ rest, p.2 + 1 ≤ naiveDateMaxDay) →
    mergeLoopChecked cur rest = some (mergeLoop cur rest) := by
  induction rest with
  | nil => intro cur _ _; rfl
  | cons q rest ih =>
    obtain ⟨s, e⟩ := q
    intro cur hcur hrest
    have he : e + 1 ≤ naiveDateMaxDay := hrest (s, e) (List.mem_cons_self _ _)
    have hrest' : ∀ p ∈ rest, p.2 + 1 ≤ naiveDateMaxDay :=
      fun p hp => hrest p (List.mem_cons_of_mem _ hp)
    rw [mergeLoopChecked, mergeLoop, if_neg (by omega)]
    by_cases h : s ≤ cur.2 + 1
    · rw [if_pos h, if_pos h]
      refine ih (cur.1, max cur.2 e) ?_ hrest'
      show max cur.2 e + 1 ≤ naiveDateMaxDay
      rcases max_choice cur.2 e with hm | hm <;> omega
    · rw [if_neg h, if_neg h, ih (s, e) he hrest']

lemma resultsLoopChecked_eq (merged : List (Int × Int)) (qs : List (Int × Int))
    (h : ∀ q ∈ qs, naiveDateMinDay ≤ q.2 - 365) :
    resultsLoopChecked merged qs = some (qs.map (fun q =>
      { absence_start := q.1
        absence_end := q.2
        window_start := q.2 - 365
        window_end := q.2
        total_days_in_window :=
          windowSum merged (q.2 - 365) q.2 : CalculationResult })) := by
  induction qs with
  | nil => rfl
  | cons q qs ih =>
    have hq := h q (List.mem_cons_self _ _)
    rw [resultsLoopChecked, if_neg (by omega),
      ih (fun r hr => h r (List.mem_cons_of_mem _ hr)), List.map_cons]

/-- Counterexample to C9 as stated: at the well-typed, `end >= start`
input `[(NaiveDate::MIN, NaiveDate::MIN)]` the program panics at
line 159 — `calculation_end - Duration::days(365)` leaves `NaiveDate`'s
range — so the panic-faithful model fails rather than returning one
result per period. -/
theorem claim_C9_counterexample :
    calculateRollingAbsencesChecked [(naiveDateMinDay, naiveDateMinDay)] = none ∧
    naiveDateMinDay ≤ naiveDateMinDay := by
  have hs : sortPeriods [(naiveDateMinDay, naiveDateMinDay)] =
      [(naiveDateMinDay, naiveDateMinDay)] :=
    sortPeriods_sorted_self _ (by decide)
  refine ⟨?_, le_refl _⟩
  rw [calculateRollingAbsencesChecked, if_neg (by decide), hs]
  decide

/-- C9 (amended): `calculate_rolling_absences` returns without failure
exactly one result per input period — malformed `end < start` pairs
included — for every input list whose end dates keep chrono's date
arithmetic in range (`end - 365 days` not below `NaiveDate::MIN`,
`end + 1 day` not above `NaiveDate::MAX`): on such inputs the
first-element access after the emptiness check, the `last_mut` unwrap,
and both date additions are safe, so the panic-faithful model agrees
with the total one. -/
theorem claim_C9 (ps : List (Int × Int))
    (hlo : ∀ p ∈ ps, naiveDateMinDay ≤ p.2 - 365)
    (hhi : ∀ p ∈ ps, p.2 + 1 ≤ naiveDateMaxDay) :
    calculateRollingAbsencesChecked ps = some (calculate_rolling_absences ps) ∧
    (calculate_rolling_absences ps).length = ps.length := by
  constructor
  · cases ps with
    | nil => rfl
    | cons p ps =>
      rcases hs : sortPeriods (p :: ps) with _ | ⟨q, rest⟩
      · exfalso
        have h1 := congrArg List.length hs
        simp [sortPeriods] at h1
      · have hperm := sortPeriods_perm (p :: ps)
        rw [hs] at hperm
        have hq : q.2 + 1 ≤ naiveDateMaxDay :=
          hhi q (hperm.mem_iff.mp (List.mem_cons_self _ _))
        have hrest : ∀ r ∈ rest, r.2 + 1 ≤ naiveDateMaxDay :=
          fun r hr => hhi r (hperm.mem_iff.mp (List.mem_cons_of_mem _ hr))
        have hml := mergeLoopChecked_eq rest q hq hrest
        have hrl := resultsLoopChecked_eq (mergeLoop q rest) (p :: ps) hlo
        have hne : (p :: ps).isEmpty = false := rfl
        simp only [calculateRollingAbsencesChecked, calculate_rolling_absences,
          mergeIntervals, hs, hml, hrl, hne, Bool.false_eq_true, if_false]
  · cases ps with
    | nil => rfl
    | cons p ps =>
      simp only [calculate_rolling_absences, List.isEmpty_cons, Bool.false_eq_true,
        if_false, List.length_map]

/-- Witness for the amended C9 at the concrete in-range input `[(0, 10)]`. -/
theorem claim_C9_witness :
    (∀ p ∈ [((0 : Int), (10 : Int))], naiveDateMinDay ≤ p.2 - 365) ∧
    (∀ p ∈ [((0 : Int), (10 : Int))], p.2 + 1 ≤ naiveDateMaxDay) ∧
    (calculateRollingAbsencesChecked [((0 : Int), (10 : Int))] =
        some (calculate_rolling_absences [((0 : Int), (10 : Int))]) ∧
      (calculate_rolling_absences [((0 : Int), (10 : Int))]).length =
        ([((0 : Int), (10 : Int))] : List (Int × Int)).length) :=
  ⟨by decide, by decide, claim_C9 [((0 : Int), (10 : Int))] (by decide) (by decide)⟩

lemma validateAbsences_eq_filter (l : List (Int × Int)) :
    validateAbsences l = l.filter (fun p => decide (p.1 ≤ p.2)) := by
  induction l with
  | nil => rfl
  | cons p l ih =>
    rw [validateAbsences, List.filter_cons]
    by_cases h : p.2 < p.1
    · rw [if_pos h, if_neg (by simp only [decide_eq_true_eq]; omega), ih]
    · rw [if_neg h, if_pos (by simp only [decide_eq_true_eq]; omega), ih]

/-- C3: with the overlapping periods `[2023-03-01, 2023-03-15]` and
`[2023-03-10, 2023-03-25]`, the second result (window ending 2023-03-25)
reports 25 days — the union span 03-01..03-25 counted once via the single
merged interval — and not `15 + 16 = 31`. -/
theorem claim_C3 :
    (calculate_rolling_absences overlapInput).map
        (fun r => (r.window_end, r.total_days_in_window)) =
      [(daysFromCivil 2023 3 15, 15), (daysFromCivil 2023 3 25, 25)] ∧
    mergeIntervals overlapInput = [(daysFromCivil 2023 3 1, daysFromCivil 2023 3 25)] ∧
    daysFromCivil 2023 3 25 - daysFromCivil 2023 3 1 + 1 = 25 ∧
    (25 : Int) ≠ 15 + 16 := by
  have h : mergeIntervals overlapInput =
      mergeLoop (daysFromCivil 2023 3 1, daysFromCivil 2023 3 15)
        [(daysFromCivil 2023 3 10, daysFromCivil 2023 3 25)] := by
    rw [mergeIntervals, sortPeriods_sorted_self _ (by decide)]
    rfl
  refine ⟨?_, ?_, by decide, by decide⟩
  · rw [calculate_rolling_absences, if_neg (by decide), h]
    decide
  · rw [h]
    decide

/-- C5: a period starting no later than one day after the current merged
interval's end is absorbed into it (the end becoming the max of the two
ends), a period starting two or more days later opens a new interval;
concretely `[2023-01-01, 2023-01-05]` and `[2023-01-06, 2023-01-10]`
merge into `[2023-01-01, 2023-01-10]` with the covering window reporting
10, while periods separated by two or more days stay separate and their
contributions add (`10 + 20 = 30`). -/
theorem claim_C5 (cur : Int × Int) (s e : Int) (rest : List (Int × Int)) :
    (s ≤ cur.2 + 1 →
      mergeLoop cur ((s, e) :: rest) = mergeLoop (cur.1, max cur.2 e) rest) ∧
    (cur.2 + 2 ≤ s →
      mergeLoop cur ((s, e) :: rest) = cur :: mergeLoop (s, e) rest) ∧
    mergeIntervals adjacentInput = [(daysFromCivil 2023 1 1, daysFromCivil 2023 1 10)] ∧
    (calculate_rolling_absences adjacentInput).map (fun r => r.total_days_in_window) =
      [5, 10] ∧
    mergeIntervals separateInput = separateInput ∧
    (calculate_rolling_absences separateInput).map (fun r => r.total_days_in_window) =
      [10, 30] := by
  have hadj : mergeIntervals adjacentInput =
      mergeLoop (daysFromCivil 2023 1 1, daysFromCivil 2023 1 5)
        [(daysFromCivil 2023 1 6, daysFromCivil 2023 1 10)] := by
    rw [mergeIntervals, sortPeriods_sorted_self _ (by decide)]
    rfl
  have hsep : mergeIntervals separateInput =
      mergeLoop (daysFromCivil 2023 1 1, daysFromCivil 2023 1 10)
        [(daysFromCivil 2023 8 1, daysFromCivil 2023 8 20)] := by
    rw [mergeIntervals, sortPeriods_sorted_self _ (by decide)]
    rfl
  refine ⟨fun h => by rw [mergeLoop, if_pos h],
    fun h => by rw [mergeLoop, if_neg (by omega)], ?_, ?_, ?_, ?_⟩
  · rw [hadj]
    decide
  · rw [calculate_rolling_absences, if_neg (by decide), hadj]
    decide
  · rw [hsep]
    decide
  · rw [calculate_rolling_absences, if_neg (by decide), hsep]
    decide

/-- Witness for C5: the absorb branch at a one-day gap and the
new-interval branch at a two-day gap, on concrete intervals. -/
theorem claim_C5_witness :
    ((6 : Int) ≤ (((0 : Int), (5 : Int)) : Int × Int).2 + 1 ∧
      mergeLoop ((0 : Int), (5 : Int)) [(6, 10)] = mergeLoop (0, max 5 10) []) ∧
    ((((0 : Int), (5 : Int)) : Int × Int).2 + 2 ≤ (8 : Int) ∧
      mergeLoop ((0 : Int), (5 : Int)) [(8, 10)] = (0, 5) :: mergeLoop (8, 10) []) :=
  ⟨⟨by decide, (claim_C5 (0, 5) 6 10 []).1 (by decide)⟩,
   ⟨by decide, (claim_C5 (0, 5) 8 10 []).2.1 (by decide)⟩⟩

/-- Counterexample to C6 as stated: for the input
`[(2021-05-01, 2021-05-10), (2023-08-01, 2023-08-20)]` the computed
window starts are 2020-05-10 and 2022-08-20, not the claimed 2020-05-01
and 2022-08-01. -/
theorem claim_C6_counterexample :
    (calculate_rolling_absences outsideInput).map (fun r => r.window_start) =
      [daysFromCivil 2020 5 10, daysFromCivil 2022 8 20] ∧
    daysFromCivil 2020 5 10 ≠ daysFromCivil 2020 5 1 ∧
    daysFromCivil 2022 8 20 ≠ daysFromCivil 2022 8 1 := by
  have h : mergeIntervals outsideInput =
      mergeLoop (daysFromCivil 2021 5 1, daysFromCivil 2021 5 10)
        [(daysFromCivil 2023 8 1, daysFromCivil 2023 8 20)] := by
    rw [mergeIntervals, sortPeriods_sorted_self _ (by decide)]
    rfl
  refine ⟨?_, by decide, by decide⟩
  rw [calculate_rolling_absences, if_neg (by decide), h]
  decide

/-- C6 (amended): for the input
`[(2021-05-01, 2021-05-10), (2023-08-01, 2023-08-20)]` the second
period's result has window `[2022-08-20, 2023-08-20]` (end minus 365
days) and total 20, the first period lying fully outside that window;
the first period's result has window `[2020-05-10, 2021-05-10]` and
total 10. -/
theorem claim_C6 :
    (calculate_rolling_absences outsideInput).map
        (fun r => (r.window_start, r.window_end, r.total_days_in_window)) =
      [(daysFromCivil 2020 5 10, daysFromCivil 2021 5 10, 10),
       (daysFromCivil 2022 8 20, daysFromCivil 2023 8 20, 20)] := by
  have h : mergeIntervals outsideInput =
      mergeLoop (daysFromCivil 2021 5 1, daysFromCivil 2021 5 10)
        [(daysFromCivil 2023 8 1, daysFromCivil 2023 8 20)] := by
    rw [mergeIntervals, sortPeriods_sorted_self _ (by decide)]
    rfl
  rw [calculate_rolling_absences, if_neg (by decide), h]
  decide

/-- C7: for the input `[(2022-08-25, 2022-09-05), (2023-08-30, 2023-09-10)]`
the second result's window is `[2022-09-10, 2023-09-10]`; the first
period ends 2022-09-05, before that window's start, so it contributes 0
and the second result's total is 12, the second period's own full
inclusive span. -/
theorem claim_C7 :
    (calculate_rolling_absences partialInput).map
        (fun r => (r.window_start, r.window_end, r.total_days_in_window)) =
      [(daysFromCivil 2021 9 5, daysFromCivil 2022 9 5, 12),
       (daysFromCivil 2022 9 10, daysFromCivil 2023 9 10, 12)] ∧
    daysFromCivil 2022 9 5 < daysFromCivil 2022 9 10 ∧
    daysFromCivil 2023 9 10 - daysFromCivil 2023 8 30 + 1 = 12 := by
  have h : mergeIntervals partialInput =
      mergeLoop (daysFromCivil 2022 8 25, daysFromCivil 2022 9 5)
        [(daysFromCivil 2023 8 30, daysFromCivil 2023 9 10)] := by
    rw [mergeIntervals, sortPeriods_sorted_self _ (by decide)]
    rfl
  refine ⟨?_, by decide, by decide⟩
  rw [calculate_rolling_absences, if_neg (by decide), h]
  decide

/-- C8: a successfully deserialized document yields `Ok` with exactly the
pairs whose end is on or after their start, in input order (the kept list
is a sublist of the input); records with end before start are dropped;
a failed deserialization propagates as `Err`. -/
theorem claim_C8 (l : List (Int × Int)) :
    parse_and_validate_absences (Except.ok l) =
      Except.ok (l.filter (fun p => decide (p.1 ≤ p.2))) ∧
    (validateAbsences l).Sublist l ∧
    (∀ p, p ∈ validateAbsences l ↔ p ∈ l ∧ p.1 ≤ p.2) ∧
    (∀ e, parse_and_validate_absences (Except.error e) = Except.error e) := by
  refine ⟨?_, ?_, ?_, fun e => rfl⟩
  · show Except.ok (validateAbsences l) = _
    rw [validateAbsences_eq_filter]
  · rw [validateAbsences_eq_filter]
    exact List.filter_sublist _
  · intro p
    rw [validateAbsences_eq_filter, List.mem_filter, decide_eq_true_eq]

/-- C10: for every valid input list, each result's total lies between 0
and 366; the window spans exactly 366 calendar days and the disjoint
merged intervals clipped to it sum to at most its size. -/
theorem claim_C10 (ps : List (Int × Int)) (hv : ∀ p ∈ ps, p.1 ≤ p.2) :
    ∀ r ∈ calculate_rolling_absences ps,
      0 ≤ r.total_days_in_window ∧ r.total_days_in_window ≤ 366 ∧
      r.window_end - r.window_start + 1 = 366 := by
  intro r hr
  rcases ps with _ | ⟨p, ps'⟩
  · exact absurd hr (List.not_mem_nil r)
  · simp only [calculate_rolling_absences, List.isEmpty_cons, Bool.false_eq_true,
      if_false] at hr
    obtain ⟨q, hq, rfl⟩ := List.mem_map.mp hr
    have hb := windowSum_le (mergeIntervals (p :: ps')) (q.2 - 365) q.2
      (mergeIntervals_valid _ hv) (mergeIntervals_pairwise_gap _ hv) (by omega)
    have hnn := windowSum_nonneg (mergeIntervals (p :: ps')) (q.2 - 365) q.2
    refine ⟨hnn, ?_, by dsimp; omega⟩
    dsimp
    omega

/-- Witness for C10 at the concrete valid input `[(0, 10)]`. -/
theorem claim_C10_witness :
    (∀ p ∈ [((0 : Int), (10 : Int))], p.1 ≤ p.2) ∧
    (∀ r ∈ calculate_rolling_absences [((0 : Int), (10 : Int))],
      0 ≤ r.total_days_in_window ∧ r.total_days_in_window ≤ 366 ∧
      r.window_end - r.window_start + 1 = 366) :=
  ⟨by decide, claim_C10 _ (by decide)⟩

end ILR
